import Mathlib

/-!
Shallow embedding of the gtfstk calculator module
(src/gtfstk/calculator.py) and verification of the spec claims about it.

Tables (Pandas data frames in the source) are modelled as Lists of row
structures.  String keys (trip, route, service, stop identifiers) are
modelled as natural numbers; GTFS date strings of the form YYYYMMDD are
modelled by their numeric value (lexicographic comparison of the 8-digit
strings coincides with numeric comparison).  Time-of-day strings of the
form HH:MM:SS are modelled by their value in seconds past midnight,
except where the raw string and its possible absence matter
(`get_trips` with a time argument), where a `PyVal` sum type keeps the
string/NaN distinction.  NaN-valued statistics are modelled by `Option`.
The helper module `utilities` of the repository is not under src/; the
few helpers taken from it are modelled from the spec and marked as such.
-/

/-- A calendar date: `ymd` is the YYYYMMDD date string of the source
encoded as a number, and `wd` is the weekday (0 = Monday, ..., 6 = Sunday)
that the external calendar library (`utils.datestr_to_date(date).weekday()`)
computes for that date. -/
structure Date where
  ymd : Nat
  wd : Fin 7
deriving DecidableEq

/-- A row of the trips table. -/
structure Trip where
  trip_id : Nat
  route_id : Nat
  service_id : Nat
  direction_id : Nat
deriving DecidableEq

/-- A row of the calendar table: one service, seven weekday flags and an
inclusive date range. -/
structure CalendarRow where
  service_id : Nat
  monday : Nat
  tuesday : Nat
  wednesday : Nat
  thursday : Nat
  friday : Nat
  saturday : Nat
  sunday : Nat
  start_date : Nat
  end_date : Nat
deriving DecidableEq

/-- Modelled from the spec: `utils.weekday_to_str` (the utilities module is
not under src/) maps Python weekday 0..6 to the calendar columns
monday..sunday, so looking up the flag of weekday `d` reads the
corresponding column. -/
def CalendarRow.weekdayFlag (c : CalendarRow) (d : Fin 7) : Nat :=
  match d.val with
  | 0 => c.monday
  | 1 => c.tuesday
  | 2 => c.wednesday
  | 3 => c.thursday
  | 4 => c.friday
  | 5 => c.saturday
  | _ => c.sunday

/-- A row of the calendar_dates table: a per-date exception for a service;
`exception_type` is 1 (Added) or 2 (Removed) in well-formed feeds. -/
structure CalendarDateRow where
  service_id : Nat
  date : Nat
  exception_type : Nat
deriving DecidableEq

/-- A raw Pandas cell value of the departure_time column: either a time
string or the float NaN that Pandas uses for a missing value.  Time
strings HH:MM:SS (hour possibly over 24) compare lexicographically,
which on these fixed-width strings coincides with the numeric order of
their second counts, so the string is modelled by that order-isomorphic
numeric code. -/
inductive PyVal where
  | timestr (v : Nat)
  | nan
deriving DecidableEq

/-- A row of the stop_times table as `get_trips` sees it: departure times
are the raw, unconverted column values. -/
structure StopTimeRaw where
  trip_id : Nat
  stop_id : Nat
  departure_time : PyVal
deriving DecidableEq

/-- A row of the routes table (only the key is needed here). -/
structure RouteRow where
  route_id : Nat
deriving DecidableEq

/-- A row of the stops table (only the key is needed here). -/
structure StopRow where
  stop_id : Nat
deriving DecidableEq

/-- The tables of a Feed object together with the derived indices
(`trips_i`, `calendar_i`, `calendar_dates_g` are the same tables indexed
for fast lookup; lookups are modelled by `List.find?` on the underlying
tables). -/
structure Feed where
  trips : List Trip
  calendar : List CalendarRow
  calendar_dates : List CalendarDateRow
  routes : List RouteRow
  stops : List StopRow
  stop_times : List StopTimeRaw

/-- Lookup in the `calendar_dates_g` groupby index: the first
calendar_dates row for the pair (service, date), as
`caldg.get_group((service, date)).iat[0]` reads it.  An empty
calendar_dates table makes the index `None` in the source, which is the
same as finding no row. -/
def findCalendarDate (feed : Feed) (service d : Nat) : Option CalendarDateRow :=
  feed.calendar_dates.find? (fun r => r.service_id == service && r.date == d)

/-- Lookup in the `calendar_i` index: the calendar row of a service. -/
def findCalendar (feed : Feed) (service : Nat) : Option CalendarRow :=
  feed.calendar.find? (fun c => c.service_id == service)

/-- Embedding of the body of `is_active_trip` after the trip-to-service
lookup (calculator.py lines 384-407): exception override first, then the
calendar weekly pattern restricted to the date range, else False. -/
def is_active_service (feed : Feed) (service : Nat) (d : Date) : Bool :=
  match findCalendarDate feed service d.ymd with
  | some r => r.exception_type == 1
  | none =>
    match findCalendar feed service with
    | some c =>
        decide (c.start_date ≤ d.ymd) && decide (d.ymd ≤ c.end_date) &&
          (c.weekdayFlag d.wd == 1)
    | none => false

/-- Embedding of `is_active_trip` (calculator.py lines 367-407): look up
the service of the trip in `trips_i`, then resolve activity.  The source
assumes the trip identifier is valid; an unknown identifier is mapped to
False here. -/
def is_active_trip (feed : Feed) (trip : Nat) (d : Date) : Bool :=
  match feed.trips.find? (fun t => t.trip_id == trip) with
  | some t => is_active_service feed t.service_id d
  | none => false

theorem find?_eq_some_of_mem_unique {α : Type _} (p : α → Bool) (l : List α)
    (r : α) (hmem : r ∈ l) (hp : p r = true)
    (huniq : ∀ x ∈ l, p x = true → x = r) : l.find? p = some r := by
  induction l with
  | nil => cases hmem
  | cons a t ih =>
    by_cases ha : p a = true
    · have : a = r := huniq a (List.mem_cons_self a t) ha
      subst this
      simp [List.find?, ha, hp]
    · simp only [List.find?, ha]
      rcases List.mem_cons.mp hmem with h | h
      · exact absurd (h ▸ hp) ha
      · exact ih h (fun x hx hpx => huniq x (List.mem_cons_of_mem a hx) hpx)

/-- C1: the service-activity decision follows the strict priority order:
an exception row for (service, date) decides alone (result is
exception_type = 1), else a calendar row for the service decides by
date range and weekday flag, else the result is False. -/
theorem is_active_service_priority (feed : Feed) (service : Nat) (d : Date) :
    (∀ r : CalendarDateRow, r ∈ feed.calendar_dates →
      r.service_id = service → r.date = d.ymd →
      (∀ x ∈ feed.calendar_dates,
        x.service_id = service → x.date = d.ymd → x = r) →
      is_active_service feed service d = (r.exception_type == 1))
    ∧ ((∀ x ∈ feed.calendar_dates,
          ¬(x.service_id = service ∧ x.date = d.ymd)) →
       ∀ c : CalendarRow, c ∈ feed.calendar → c.service_id = service →
        (∀ x ∈ feed.calendar, x.service_id = service → x = c) →
        is_active_service feed service d =
          (decide (c.start_date ≤ d.ymd) && decide (d.ymd ≤ c.end_date) &&
            (c.weekdayFlag d.wd == 1)))
    ∧ ((∀ x ∈ feed.calendar_dates,
          ¬(x.service_id = service ∧ x.date = d.ymd)) →
       (∀ x ∈ feed.calendar, x.service_id ≠ service) →
       is_active_service feed service d = false) := by
  refine ⟨?_, ?_, ?_⟩
  · intro r hmem hserv hdate huniq
    have hfind : findCalendarDate feed service d.ymd = some r := by
      apply find?_eq_some_of_mem_unique _ _ _ hmem
      · simp [hserv, hdate]
      · intro x hx hpx
        simp only [Bool.and_eq_true, beq_iff_eq] at hpx
        exact huniq x hx hpx.1 hpx.2
    simp [is_active_service, hfind]
  · intro hnone c hmem hserv huniq
    have hfind : findCalendarDate feed service d.ymd = none := by
      rw [findCalendarDate, List.find?_eq_none]
      intro x hx
      simp only [Bool.and_eq_true, beq_iff_eq, not_and]
      intro h1 h2
      exact hnone x hx ⟨h1, h2⟩
    have hcal : findCalendar feed service = some c := by
      apply find?_eq_some_of_mem_unique _ _ _ hmem
      · simp [hserv]
      · intro x hx hpx
        simp only [beq_iff_eq] at hpx
        exact huniq x hx hpx
    simp [is_active_service, hfind, hcal]
  · intro hnone hnocal
    have hfind : findCalendarDate feed service d.ymd = none := by
      rw [findCalendarDate, List.find?_eq_none]
      intro x hx
      simp only [Bool.and_eq_true, beq_iff_eq, not_and]
      intro h1 h2
      exact hnone x hx ⟨h1, h2⟩
    have hcal : findCalendar feed service = none := by
      rw [findCalendar, List.find?_eq_none]
      intro x hx
      simp [hnocal x hx]
    simp [is_active_service, hfind, hcal]

/-- A feed whose only service (id 5) runs Monday to Friday in January
2020 with an Added exception on Saturday 20200104 and a Removed exception
on Monday 20200106. -/
def exCalFeed : Feed :=
  { trips := [⟨1, 1, 5, 0⟩]
  , calendar := [⟨5, 1, 1, 1, 1, 1, 0, 0, 20200101, 20200131⟩]
  , calendar_dates := [⟨5, 20200104, 1⟩, ⟨5, 20200106, 2⟩]
  , routes := [⟨1⟩]
  , stops := []
  , stop_times := [] }

/-- Witness for C1: the three priority branches at concrete inputs:
the Added Saturday exception wins over the weekly pattern, the plain
Monday 20200113 is resolved by the calendar row, and an unknown service
is inactive. -/
theorem is_active_service_priority_witness :
    is_active_service exCalFeed 5 ⟨20200104, 5⟩ = true
    ∧ is_active_service exCalFeed 5 ⟨20200113, 0⟩ = true
    ∧ is_active_service exCalFeed 7 ⟨20200113, 0⟩ = false := by
  refine ⟨?_, ?_, ?_⟩
  · have h := (is_active_service_priority exCalFeed 5 ⟨20200104, 5⟩).1
      ⟨5, 20200104, 1⟩ (by decide) (by decide) (by decide) (by decide)
    simpa using h
  · have h := (is_active_service_priority exCalFeed 5 ⟨20200113, 0⟩).2.1
      (by decide) ⟨5, 1, 1, 1, 1, 1, 0, 0, 20200101, 20200131⟩
      (by decide) (by decide) (by decide)
    simpa using h
  · have h := (is_active_service_priority exCalFeed 7 ⟨20200113, 0⟩).2.2
      (by decide) (by decide)
    simpa using h

/-- Embedding of the per-date activity count of `compute_trips_activity`
(calculator.py lines 448-471): the sum of the 0/1 activity column that
the function adds for one date, over all rows of the trips table. -/
def activityCount (feed : Feed) (d : Date) : Nat :=
  (feed.trips.map
    (fun t => if is_active_trip feed t.trip_id d then 1 else 0)).sum

/-- Output frame of `compute_trips_activity`: the ymd labels of the date
columns, and one row (trip_id, activity bits) per trips-table row.  The
empty frame with only the trip_id column is `⟨[], []⟩`. -/
structure ActivityFrame where
  dateCols : List Nat
  rows : List (Nat × List Nat)
deriving DecidableEq

/-- Embedding of `compute_trips_activity` (lines 448-471): a None or
empty dates argument yields the empty frame with only the trip_id
column; otherwise one 0/1 column per date. -/
def compute_trips_activity (feed : Feed) (dates : List Date) : ActivityFrame :=
  if dates = [] then ⟨[], []⟩
  else
    ⟨dates.map Date.ymd,
     feed.trips.map (fun t =>
       (t.trip_id,
        dates.map (fun d => if is_active_trip feed t.trip_id d then 1 else 0)))⟩

/-- Python `max` over a list of (count, ymd) pairs with lexicographic
tuple comparison, as `max(s)` computes it in `get_busiest_date`; `max`
of an empty sequence raises ValueError, modelled by `none`. -/
def pyMaxPairs : List (Nat × Nat) → Option (Nat × Nat)
  | [] => none
  | p :: t =>
      some (t.foldl (fun best q =>
        if best.1 < q.1 ∨ (best.1 = q.1 ∧ best.2 < q.2) then q else best) p)

/-- Embedding of `get_busiest_date` (calculator.py lines 473-480):
`s = [(f[date].sum(), date) for date in dates]; return max(s)[1]`. -/
def get_busiest_date (feed : Feed) (dates : List Date) : Option Nat :=
  (pyMaxPairs (dates.map (fun d => (activityCount feed d, d.ymd)))).map
    Prod.snd

/-- C3: evaluation at the failing input.  Both dates 20200107 and
20200114 (Tuesdays in the calendar range of `exCalFeed`) have the same
active-trip count 1, yet the code returns the later date 20200114,
because `max` on (count, date) tuples breaks count ties toward the
lexicographically larger date string; the docstring says the first
date with the maximum count is returned. -/
theorem get_busiest_date_tie_returns_later :
    activityCount exCalFeed ⟨20200107, 1⟩ = 1
    ∧ activityCount exCalFeed ⟨20200114, 1⟩ = 1
    ∧ get_busiest_date exCalFeed [⟨20200107, 1⟩, ⟨20200114, 1⟩] =
        some 20200114 := by
  decide

/-- C9 counterexample: the busiest-date query, one of the operations the
claim covers, does not return an empty result on an empty dates list:
`max` of the empty sequence raises ValueError (modelled by `none`), so
an error does propagate to the caller. -/
theorem get_busiest_date_empty_raises :
    get_busiest_date exCalFeed [] = none := by
  decide

/-- C9 amended: `compute_trips_activity` with an empty (or None) dates
argument returns the empty frame with only the trip_id column and no
rows, for every feed; `get_busiest_date` with an empty dates argument
raises (has no result). -/
theorem empty_dates_behaviour (feed : Feed) :
    compute_trips_activity feed [] = ⟨[], []⟩
    ∧ get_busiest_date feed [] = none := by
  constructor
  · simp [compute_trips_activity]
  · simp [get_busiest_date, pyMaxPairs]

/-- A row of the trip stats frame (output of `compute_trips_stats`),
with times already converted to seconds as the route aggregation does
on entry (calculator.py lines 801-804). -/
structure TripStat where
  trip_id : Nat
  route_id : Nat
  route_short_name : Nat
  direction_id : Nat
  is_loop : Nat
  start_time : Nat
  end_time : Nat
  distance : ℚ
  duration : ℚ
deriving DecidableEq

/-- A row of the join of stop_times with the trips subset, as
`compute_stops_stats_base` uses it, departure time in seconds (the
conversion `utils.timestr_to_seconds` is external to src/). -/
structure StopTimeSec where
  trip_id : Nat
  stop_id : Nat
  route_id : Nat
  direction_id : Nat
  departure_time : Nat
deriving DecidableEq

/-- The qualifying times of a headway computation:
`sorted([t for t in times if headway_start <= t <= headway_end])`. -/
def sortQualifying (times : List Nat) (hs he : Nat) : List Nat :=
  List.insertionSort (· ≤ ·) (times.filter (fun t => decide (hs ≤ t ∧ t ≤ he)))

/-- Consecutive differences, `np.diff` of a list. -/
def diffs : List Nat → List Int
  | a :: b :: t => ((b : Int) - (a : Int)) :: diffs (b :: t)
  | _ => []

/-- Maximum of a list of integers (`np.max` of a nonempty array;
0 as junk value on the empty list, never used there). -/
def listMaxI : List Int → Int
  | [] => 0
  | a :: t => t.foldl max a

/-- Minimum of a list of integers (`np.min`). -/
def listMinI : List Int → Int
  | [] => 0
  | a :: t => t.foldl min a

/-- Mean of a list of integers as a rational (`np.mean`). -/
def listMeanI (l : List Int) : ℚ := (l.sum : ℚ) / (l.length : ℚ)

/-- The (max, min, mean) headway triple in minutes computed from a list
of consecutive differences in seconds; an empty list gives NaN for all
three, modelled by `none` (calculator.py lines 824-831, 862-869,
1251-1258). -/
def statsOfDiffs (l : List Int) : Option (ℚ × ℚ × ℚ) :=
  match l with
  | [] => none
  | a :: t =>
      some (((t.foldl max a : Int) : ℚ) / 60, ((t.foldl min a : Int) : ℚ) / 60,
        listMeanI (a :: t) / 60)

/-- Core headway computation shared by the split-directions route stats
and the stop stats: filter times to the clock window, sort, take
consecutive differences, convert to minutes. -/
def headwayStats (times : List Nat) (hs he : Nat) : Option (ℚ × ℚ × ℚ) :=
  statsOfDiffs (diffs (sortQualifying times hs he))

/-- Embedding of the headway part of `compute_route_stats_split_directions`
(calculator.py lines 819-831): start times of the one-direction group. -/
def route_stats_split_headways (group : List TripStat) (hs he : Nat) :
    Option (ℚ × ℚ × ℚ) :=
  headwayStats (group.map TripStat.start_time) hs he

/-- Embedding of the headway part of `compute_stop_stats` inside
`compute_stops_stats_base` (calculator.py lines 1246-1258): departure
times of the group. -/
def stop_stats_headways (group : List StopTimeSec) (hs he : Nat) :
    Option (ℚ × ℚ × ℚ) :=
  headwayStats (group.map StopTimeSec.departure_time) hs he

/-- The consecutive differences of the qualifying start times of one
direction of a route group (calculator.py lines 856-861). -/
def dirDiffs (group : List TripStat) (dir hs he : Nat) : List Int :=
  diffs (sortQualifying
    ((group.filter (fun t => t.direction_id == dir)).map TripStat.start_time)
    hs he)

/-- Embedding of the headway part of `compute_route_stats` for
`split_directions == False` (calculator.py lines 854-869): the
per-direction difference arrays are concatenated and the stats taken
over the concatenation. -/
def route_stats_nosplit_headways (group : List TripStat) (hs he : Nat) :
    Option (ℚ × ℚ × ℚ) :=
  statsOfDiffs (dirDiffs group 0 hs he ++ dirDiffs group 1 hs he)

/-- Definition following the words of the spec, for comparison (C2): the
trip-count-weighted mean of the two directions' mean headways, in
minutes, where the weight of a direction is its number of trips in the
group; defined when both directions have at least one consecutive
difference. -/
def specTripCountWeightedMeanHeadway (group : List TripStat) (hs he : Nat) :
    Option ℚ :=
  let g0 := group.filter (fun t => t.direction_id == 0)
  let g1 := group.filter (fun t => t.direction_id == 1)
  let d0 := dirDiffs group 0 hs he
  let d1 := dirDiffs group 1 hs he
  if d0 = [] ∨ d1 = [] then none
  else some ((((g0.length : ℚ) * listMeanI d0 + (g1.length : ℚ) * listMeanI d1) /
    ((g0.length : ℚ) + (g1.length : ℚ))) / 60)

theorem foldl_max_max (l : List Int) (a b : Int) :
    l.foldl max (max a b) = max a (l.foldl max b) := by
  induction l generalizing b with
  | nil => rfl
  | cons c t ih =>
    simp only [List.foldl]
    rw [max_assoc, ih]

theorem foldl_min_min (l : List Int) (a b : Int) :
    l.foldl min (min a b) = min a (l.foldl min b) := by
  induction l generalizing b with
  | nil => rfl
  | cons c t ih =>
    simp only [List.foldl]
    rw [min_assoc, ih]

theorem listMaxI_append (l0 l1 : List Int) (h0 : l0 ≠ []) (h1 : l1 ≠ []) :
    listMaxI (l0 ++ l1) = max (listMaxI l0) (listMaxI l1) := by
  match l0, l1 with
  | a0 :: t0, a1 :: t1 =>
    simp only [listMaxI, List.cons_append, List.foldl_append]
    rw [List.foldl_cons, foldl_max_max]

theorem listMinI_append (l0 l1 : List Int) (h0 : l0 ≠ []) (h1 : l1 ≠ []) :
    listMinI (l0 ++ l1) = min (listMinI l0) (listMinI l1) := by
  match l0, l1 with
  | a0 :: t0, a1 :: t1 =>
    simp only [listMinI, List.cons_append, List.foldl_append]
    rw [List.foldl_cons, foldl_min_min]

theorem listMeanI_append (l0 l1 : List Int) (h0 : l0 ≠ []) (h1 : l1 ≠ []) :
    listMeanI (l0 ++ l1) =
      ((l0.length : ℚ) * listMeanI l0 + (l1.length : ℚ) * listMeanI l1) /
        ((l0.length : ℚ) + (l1.length : ℚ)) := by
  have hn0 : (l0.length : ℚ) ≠ 0 := by simpa using h0
  have hn1 : (l1.length : ℚ) ≠ 0 := by simpa using h1
  simp only [listMeanI, List.sum_append, List.length_append]
  push_cast
  field_simp

/-- C2 amended: with direction-splitting disabled, when both directions
have at least one consecutive difference, the max headway is the max of
the per-direction max headways, the min headway the min of the
per-direction mins, and the mean headway is the mean of the pooled
per-direction consecutive differences, i.e. the difference-count-weighted
mean of the per-direction mean headways (not the trip-count-weighted
one). -/
theorem route_nosplit_headways_combine (g : List TripStat) (hs he : Nat)
    (h0 : dirDiffs g 0 hs he ≠ []) (h1 : dirDiffs g 1 hs he ≠ []) :
    route_stats_nosplit_headways g hs he =
      some
        (((max (listMaxI (dirDiffs g 0 hs he))
            (listMaxI (dirDiffs g 1 hs he)) : ℤ) : ℚ) / 60,
         ((min (listMinI (dirDiffs g 0 hs he))
            (listMinI (dirDiffs g 1 hs he)) : ℤ) : ℚ) / 60,
         ((((dirDiffs g 0 hs he).length : ℚ) * listMeanI (dirDiffs g 0 hs he) +
            ((dirDiffs g 1 hs he).length : ℚ) *
              listMeanI (dirDiffs g 1 hs he)) /
           (((dirDiffs g 0 hs he).length : ℚ) +
             ((dirDiffs g 1 hs he).length : ℚ))) / 60) := by
  obtain ⟨a0, t0, e0⟩ := List.exists_cons_of_ne_nil h0
  obtain ⟨a1, t1, e1⟩ := List.exists_cons_of_ne_nil h1
  have hmax := listMaxI_append (dirDiffs g 0 hs he) (dirDiffs g 1 hs he) h0 h1
  have hmin := listMinI_append (dirDiffs g 0 hs he) (dirDiffs g 1 hs he) h0 h1
  have hmean := listMeanI_append (dirDiffs g 0 hs he) (dirDiffs g 1 hs he) h0 h1
  rw [route_stats_nosplit_headways, ← hmax, ← hmin, ← hmean]
  rw [e0, e1]
  simp only [List.cons_append, statsOfDiffs, listMaxI, listMinI]

/-- A route group with two directions of unequal trip counts: direction 0
has qualifying start times 25200 and 26400 (one difference of 1200 s),
direction 1 has qualifying start times 25200, 25500 and 25800 (two
differences of 300 s each). -/
def exRouteGroup : List TripStat :=
  [ ⟨1, 1, 1, 0, 0, 25200, 27000, 1, 1⟩,
    ⟨2, 1, 1, 0, 0, 26400, 28200, 1, 1⟩,
    ⟨3, 1, 1, 1, 0, 25200, 27000, 1, 1⟩,
    ⟨4, 1, 1, 1, 0, 25500, 27300, 1, 1⟩,
    ⟨5, 1, 1, 1, 0, 25800, 27600, 1, 1⟩ ]

/-- C2 counterexample: on `exRouteGroup` the code computes a mean headway
of (1200 + 300 + 300)/3 = 600 s = 10 min, while the trip-count-weighted
mean of the per-direction means is (2 * 1200 + 3 * 300)/5 = 660 s =
11 min; the two formulas disagree, so the mean headway is not the
trip-count-weighted mean the claim states. -/
theorem route_nosplit_mean_headway_ne_spec :
    (route_stats_nosplit_headways exRouteGroup 25200 68400).map
        (fun s => s.2.2) = some 10
    ∧ specTripCountWeightedMeanHeadway exRouteGroup 25200 68400 = some 11
    ∧ (10 : ℚ) ≠ 11 := by
  have d0 : dirDiffs exRouteGroup 0 25200 68400 = [1200] := by decide
  have d1 : dirDiffs exRouteGroup 1 25200 68400 = [300, 300] := by decide
  have g0 : (exRouteGroup.filter (fun t => t.direction_id == 0)).length = 2 := by
    decide
  have g1 : (exRouteGroup.filter (fun t => t.direction_id == 1)).length = 3 := by
    decide
  refine ⟨?_, ?_, by norm_num⟩
  · rw [route_stats_nosplit_headways, d0, d1]
    simp only [List.cons_append, List.nil_append, statsOfDiffs, listMeanI,
      Option.map_some]
    norm_num
  · rw [specTripCountWeightedMeanHeadway]
    simp only [d0, d1, g0, g1, listMeanI]
    norm_num
    intro h
    simp at h

/-- Witness for C2 (amended): evaluating the combination rule on
`exRouteGroup` gives max 20 min, min 5 min and mean 10 min. -/
theorem route_nosplit_headways_combine_witness :
    route_stats_nosplit_headways exRouteGroup 25200 68400 =
      some (20, 5, 10) := by
  have d0 : dirDiffs exRouteGroup 0 25200 68400 = [1200] := by decide
  have d1 : dirDiffs exRouteGroup 1 25200 68400 = [300, 300] := by decide
  have h := route_nosplit_headways_combine exRouteGroup 25200 68400
    (by decide) (by decide)
  rw [h, d0, d1]
  simp only [listMaxI, listMinI, listMeanI, List.foldl]
  norm_num

/-- C7: the headway computation uses exactly the times inside the
inclusive clock window; fewer than two qualifying times make all three
headway statistics undefined (none); exactly two qualifying times
t1 < t2 make max = min = mean = (t2 - t1)/60 minutes.  The last two
conjuncts record that the split-directions route stats and the stop
stats both run this computation on their group times. -/
theorem headway_window_and_small_groups (times : List Nat) (hs he : Nat) :
    (∀ t, t ∈ sortQualifying times hs he ↔ t ∈ times ∧ hs ≤ t ∧ t ≤ he)
    ∧ ((sortQualifying times hs he).length < 2 →
        headwayStats times hs he = none)
    ∧ (∀ t1 t2, sortQualifying times hs he = [t1, t2] → t1 < t2 →
        headwayStats times hs he =
          some ((((t2 : ℤ) - (t1 : ℤ)) : ℚ) / 60,
            (((t2 : ℤ) - (t1 : ℤ)) : ℚ) / 60,
            (((t2 : ℤ) - (t1 : ℤ)) : ℚ) / 60))
    ∧ (∀ g : List TripStat,
        route_stats_split_headways g hs he =
          headwayStats (g.map TripStat.start_time) hs he)
    ∧ (∀ g : List StopTimeSec,
        stop_stats_headways g hs he =
          headwayStats (g.map StopTimeSec.departure_time) hs he) := by
  refine ⟨?_, ?_, ?_, fun g => rfl, fun g => rfl⟩
  · intro t
    simp [sortQualifying, List.mem_insertionSort, List.mem_filter,
      and_assoc]
  · intro hlen
    rw [headwayStats]
    rcases e : sortQualifying times hs he with _ | ⟨a, _ | ⟨b, t⟩⟩
    · rfl
    · rfl
    · rw [e] at hlen
      simp only [List.length_cons] at hlen
      omega
  · intro t1 t2 he12 hlt
    rw [headwayStats, he12]
    simp [diffs, statsOfDiffs, listMeanI]

/-- Witness for C7: a single qualifying time gives undefined headways,
and the two qualifying times 07:00:00 and 07:15:00 (25200 s and 26100 s,
the time 70000 s falling outside the default window 25200..68400) give
max = min = mean = 15 minutes. -/
theorem headway_window_witness :
    headwayStats [70000, 26100] 25200 68400 = none
    ∧ headwayStats [26100, 25200, 70000] 25200 68400 =
        some (15, 15, 15) := by
  constructor
  · exact (headway_window_and_small_groups [70000, 26100] 25200 68400).2.1
      (by decide)
  · have h := (headway_window_and_small_groups [26100, 25200, 70000]
      25200 68400).2.2.1 25200 26100 (by decide) (by decide)
    rw [h]
    norm_num

/-- Embedding of `count_active_trips` (calculator.py lines 351-365): the
number of rows with `start_time <= time` and `end_time > time`. -/
def count_active_trips (trips : List TripStat) (time : Nat) : Nat :=
  (trips.filter (fun x =>
    decide (x.start_time ≤ time) && decide (x.end_time > time))).length

/-- The sorted distinct start/end times of a group, as
`np.unique(group[["start_time", "end_time"]].values)` samples them
(calculator.py lines 834, 872). -/
def sampleTimes (g : List TripStat) : List Nat :=
  (List.insertionSort (· ≤ ·)
    (g.map TripStat.start_time ++ g.map TripStat.end_time)).dedup

/-- Maximum of a list of naturals, 0 on the empty list. -/
def listMaxN : List Nat → Nat
  | [] => 0
  | a :: t => t.foldl max a

/-- Modelled from the spec: helper for `utils.get_peak_indices` (the
utilities module is not under src/): for each position of `counts`, the
length of the run of entries equal to `M` starting there. -/
def runLens (counts : List Nat) (M : Nat) : List Nat :=
  match counts with
  | [] => []
  | c :: t =>
      let r := runLens t M
      (if c = M then 1 + r.headD 0 else 0) :: r

/-- Modelled from the spec: the first index at which a list of naturals
attains its maximum (0 on the empty list). -/
def argmaxFirst : List Nat → Nat
  | [] => 0
  | a :: t => if t.all (fun x => x ≤ a) then 0 else argmaxFirst t + 1

/-- Modelled from the spec: `utils.get_peak_indices(times, counts)` (the
utilities module is not under src/) returns the index pair delimiting
the first longest contiguous run of entries of `counts` attaining the
maximum count; the docstrings in src/ (calculator.py lines 744-750)
call it the "first longest period" during which the peak number of
trips occurs.  Only `counts` determines the indices. -/
def get_peak_indices (counts : List Nat) : Nat × Nat :=
  let M := listMaxN counts
  let r := runLens counts M
  let s := argmaxFirst r
  (s, s + r.getD s 0 - 1)

/-- Embedding of the peak fields of `compute_route_stats`
(calculator.py lines 871-877): index pair of the peak window over the
counts sampled at the distinct start/end times of the group. -/
def peakCounts (g : List TripStat) : List Nat :=
  (sampleTimes g).map (count_active_trips g)

/-- The pair (start index, end index) of the peak window of a group. -/
def peakIndicesOf (g : List TripStat) : Nat × Nat :=
  get_peak_indices (peakCounts g)

theorem foldlMax_max {α : Type _} [LinearOrder α] (l : List α) (a b : α) :
    l.foldl max (max a b) = max a (l.foldl max b) := by
  induction l generalizing b with
  | nil => rfl
  | cons c t ih =>
    simp only [List.foldl]
    rw [max_assoc, ih]

theorem getD_lt {α : Type _} (l : List α) (d : α) (i : Nat)
    (h : i < l.length) : l.getD i d = l[i] := by
  simp [List.getD_eq_getElem?_getD, List.getElem?_eq_getElem h]

theorem getD_ge {α : Type _} (l : List α) (d : α) (i : Nat)
    (h : l.length ≤ i) : l.getD i d = d := by
  simp [List.getD_eq_getElem?_getD, List.getElem?_eq_none h]

theorem listMaxN_mem (l : List Nat) (h : l ≠ []) : listMaxN l ∈ l := by
  match l with
  | a :: t =>
    clear h
    induction t generalizing a with
    | nil => simp [listMaxN]
    | cons c t ih =>
      have hstep : listMaxN (a :: c :: t) = listMaxN (max a c :: t) := by
        simp [listMaxN, List.foldl]
      rw [hstep]
      rcases List.mem_cons.mp (ih (max a c)) with h1 | h1
      · rcases max_choice a c with hac | hac
        · rw [h1, hac]
          exact List.mem_cons_self _ _
        · rw [h1, hac]
          exact List.mem_cons.mpr (Or.inr (List.mem_cons_self _ _))
      · exact List.mem_cons.mpr (Or.inr (List.mem_cons.mpr (Or.inr h1)))

theorem le_listMaxN (l : List Nat) : ∀ x ∈ l, x ≤ listMaxN l := by
  match l with
  | [] =>
    intro x hx
    cases hx
  | a :: t =>
    induction t generalizing a with
    | nil =>
      intro x hx
      rcases List.mem_cons.mp hx with h1 | h1
      · simp [h1, listMaxN]
      · cases h1
    | cons c t ih =>
      intro x hx
      have hstep : listMaxN (a :: c :: t) = listMaxN (max a c :: t) := by
        simp [listMaxN, List.foldl]
      rw [hstep]
      rcases List.mem_cons.mp hx with h1 | h1
      · rw [h1]
        exact le_trans (le_max_left a c)
          (ih (max a c) (max a c) (List.mem_cons_self _ _))
      · rcases List.mem_cons.mp h1 with h2 | h2
        · rw [h2]
          exact le_trans (le_max_right a c)
            (ih (max a c) (max a c) (List.mem_cons_self _ _))
        · exact ih (max a c) x (List.mem_cons.mpr (Or.inr h2))

theorem getD_le_listMaxN (l : List Nat) (i : Nat) :
    l.getD i 0 ≤ listMaxN l := by
  rcases lt_or_ge i l.length with h | h
  · rw [getD_lt l 0 i h]
    exact le_listMaxN l _ (List.getElem_mem h)
  · rw [getD_ge l 0 i h]
    exact Nat.zero_le _

theorem headD_eq_getD (l : List Nat) : l.headD 0 = l.getD 0 0 := by
  cases l <;> rfl

theorem runLens_length (counts : List Nat) (M : Nat) :
    (runLens counts M).length = counts.length := by
  induction counts with
  | nil => rfl
  | cons c t ih => simp [runLens, ih]

theorem runLens_spec1 (counts : List Nat) (M : Nat) :
    ∀ i j, j < (runLens counts M).getD i 0 → counts.getD (i + j) 0 = M := by
  induction counts with
  | nil =>
    intro i j hj
    simp [runLens] at hj
  | cons c t ih =>
    intro i j hj
    cases i with
    | zero =>
      rw [runLens] at hj
      simp only [List.getD_cons_zero] at hj
      by_cases hc : c = M
      · rw [if_pos hc] at hj
        cases j with
        | zero => simpa [List.getD_cons_zero] using hc
        | succ j =>
          rw [headD_eq_getD] at hj
          have hj2 : j < (runLens t M).getD 0 0 := by omega
          have := ih 0 j hj2
          simpa [List.getD_cons_succ] using this
      · rw [if_neg hc] at hj
        omega
    | succ i =>
      rw [runLens] at hj
      simp only [List.getD_cons_succ] at hj
      have := ih i j hj
      have harith : i + 1 + j = (i + j) + 1 := by omega
      rw [harith, List.getD_cons_succ]
      exact this

theorem runLens_le (counts : List Nat) (M : Nat) :
    ∀ s, (runLens counts M).getD s 0 ≤ counts.length - s := by
  induction counts with
  | nil =>
    intro s
    simp [runLens]
  | cons c t ih =>
    intro s
    cases s with
    | zero =>
      rw [runLens]
      simp only [List.getD_cons_zero]
      by_cases hc : c = M
      · rw [if_pos hc, headD_eq_getD]
        have := ih 0
        simp only [List.length_cons, Nat.sub_zero] at *
        omega
      · rw [if_neg hc]
        omega
    | succ s =>
      rw [runLens]
      simp only [List.getD_cons_succ, List.length_cons]
      have := ih s
      omega

theorem runLens_ge (counts : List Nat) (M : Nat) :
    ∀ s k, (∀ j, j < k → counts.getD (s + j) 0 = M) →
      s + k ≤ counts.length → k ≤ (runLens counts M).getD s 0 := by
  induction counts with
  | nil =>
    intro s k _ hlen
    simp only [List.length_nil] at hlen
    omega
  | cons c t ih =>
    intro s k hrun hlen
    cases s with
    | zero =>
      cases k with
      | zero => omega
      | succ k =>
        have hc : c = M := by simpa [List.getD_cons_zero] using hrun 0 (by omega)
        rw [runLens]
        simp only [List.getD_cons_zero, if_pos hc, headD_eq_getD]
        have hk : k ≤ (runLens t M).getD 0 0 := by
          apply ih 0 k
          · intro j hj
            have := hrun (j + 1) (by omega)
            simpa [List.getD_cons_succ] using this
          · simp only [List.length_cons] at hlen
            omega
        omega
    | succ s =>
      rw [runLens]
      simp only [List.getD_cons_succ]
      apply ih s k
      · intro j hj
        have := hrun j hj
        have harith : s + 1 + j = (s + j) + 1 := by omega
        rw [harith, List.getD_cons_succ] at this
        exact this
      · simp only [List.length_cons] at hlen
        omega

theorem argmaxFirst_lt (l : List Nat) (h : l ≠ []) :
    argmaxFirst l < l.length := by
  induction l with
  | nil => exact absurd rfl h
  | cons a t ih =>
    rw [argmaxFirst]
    by_cases hall : t.all (fun x => decide (x ≤ a)) = true
    · rw [if_pos hall]
      simp
    · rw [if_neg hall]
      have ht : t ≠ [] := by
        rintro rfl
        simp at hall
      have := ih ht
      simp only [List.length_cons]
      omega

theorem argmaxFirst_le (l : List Nat) :
    ∀ i, l.getD i 0 ≤ l.getD (argmaxFirst l) 0 := by
  induction l with
  | nil =>
    intro i
    simp
  | cons a t ih =>
    intro i
    rw [argmaxFirst]
    by_cases hall : t.all (fun x => decide (x ≤ a)) = true
    · rw [if_pos hall]
      simp only [List.getD_cons_zero]
      cases i with
      | zero => simp
      | succ j =>
        simp only [List.getD_cons_succ]
        rcases lt_or_ge j t.length with hj | hj
        · rw [getD_lt t 0 j hj]
          have := List.all_eq_true.mp hall _ (List.getElem_mem hj)
          simpa using this
        · rw [getD_ge t 0 j hj]
          exact Nat.zero_le _
    · rw [if_neg hall]
      simp only [List.getD_cons_succ]
      cases i with
      | zero =>
        simp only [List.getD_cons_zero]
        simp only [List.all_eq_true, not_forall] at hall
        obtain ⟨x, hx, hax⟩ := by
          simpa using hall
        obtain ⟨n, hn, hxn⟩ := List.getElem_of_mem hx
        have h1 : x ≤ t.getD (argmaxFirst t) 0 := by
          rw [← hxn]
          rw [← getD_lt t 0 n hn]
          exact ih n
        omega
      | succ j =>
        simp only [List.getD_cons_succ]
        exact ih j

theorem argmaxFirst_first (l : List Nat) :
    ∀ i, i < l.length → l.getD i 0 = l.getD (argmaxFirst l) 0 →
      argmaxFirst l ≤ i := by
  induction l with
  | nil =>
    intro i hi
    simp at hi
  | cons a t ih =>
    intro i hi heq
    rw [argmaxFirst] at heq ⊢
    by_cases hall : t.all (fun x => decide (x ≤ a)) = true
    · rw [if_pos hall]
      exact Nat.zero_le _
    · rw [if_neg hall] at heq ⊢
      cases i with
      | zero =>
        exfalso
        simp only [List.getD_cons_zero, List.getD_cons_succ] at heq
        simp only [List.all_eq_true, not_forall] at hall
        obtain ⟨x, hx, hax⟩ := by
          simpa using hall
        obtain ⟨n, hn, hxn⟩ := List.getElem_of_mem hx
        have h1 : x ≤ t.getD (argmaxFirst t) 0 := by
          rw [← hxn, ← getD_lt t 0 n hn]
          exact argmaxFirst_le t n
        omega
      | succ j =>
        simp only [List.getD_cons_succ] at heq
        simp only [List.length_cons] at hi
        have := ih j (by omega) heq
        omega

theorem get_peak_indices_spec (counts : List Nat) (hc : counts ≠ []) :
    (get_peak_indices counts).1 ≤ (get_peak_indices counts).2
    ∧ (get_peak_indices counts).2 < counts.length
    ∧ counts.getD (get_peak_indices counts).1 0 = listMaxN counts
    ∧ (∀ i, counts.getD i 0 ≤ listMaxN counts)
    ∧ (∀ i, (get_peak_indices counts).1 ≤ i →
        i ≤ (get_peak_indices counts).2 →
        counts.getD i 0 = listMaxN counts)
    ∧ (∀ s e, s ≤ e → e < counts.length →
        (∀ i, s ≤ i → i ≤ e → counts.getD i 0 = listMaxN counts) →
        e - s ≤ (get_peak_indices counts).2 - (get_peak_indices counts).1
        ∧ (e - s = (get_peak_indices counts).2 - (get_peak_indices counts).1 →
            (get_peak_indices counts).1 ≤ s)) := by
  obtain ⟨s, L, hp, hsa, hLa⟩ :
      ∃ s L, get_peak_indices counts = (s, s + L - 1)
        ∧ s = argmaxFirst (runLens counts (listMaxN counts))
        ∧ L = (runLens counts (listMaxN counts)).getD s 0 :=
    ⟨_, _, rfl, rfl, rfl⟩
  rw [hp]
  dsimp only
  have hrlen : (runLens counts (listMaxN counts)).length = counts.length :=
    runLens_length counts (listMaxN counts)
  obtain ⟨i0, hi0, hgi0⟩ := List.getElem_of_mem (listMaxN_mem counts hc)
  have hMat : counts.getD i0 0 = listMaxN counts := by
    rw [getD_lt _ _ _ hi0]
    exact hgi0
  have hL1 : 1 ≤ (runLens counts (listMaxN counts)).getD i0 0 := by
    apply runLens_ge counts (listMaxN counts) i0 1
    · intro j hj
      have hj0 : j = 0 := by omega
      rw [hj0, Nat.add_zero]
      exact hMat
    · omega
  have hLs : 1 ≤ L := by
    rw [hLa, hsa]
    exact le_trans hL1 (argmaxFirst_le _ i0)
  have hslen : s < counts.length := by
    by_contra hcon
    have hL0 : L = 0 := by
      rw [hLa, getD_ge _ _ _ (by omega)]
    omega
  have hLle : L ≤ counts.length - s := by
    rw [hLa]
    exact runLens_le counts (listMaxN counts) s
  refine ⟨by omega, by omega, ?_, ?_, ?_, ?_⟩
  · have h0L : 0 < (runLens counts (listMaxN counts)).getD s 0 := by omega
    have := runLens_spec1 counts (listMaxN counts) s 0 h0L
    rw [Nat.add_zero] at this
    exact this
  · intro i
    exact getD_le_listMaxN counts i
  · intro i h1 h2
    have hjL : i - s < (runLens counts (listMaxN counts)).getD s 0 := by omega
    have := runLens_spec1 counts (listMaxN counts) s (i - s) hjL
    rw [show s + (i - s) = i by omega] at this
    exact this
  · intro s' e' hse hlen hall
    have hk : e' - s' + 1 ≤ (runLens counts (listMaxN counts)).getD s' 0 := by
      apply runLens_ge counts (listMaxN counts) s' (e' - s' + 1)
      · intro j hj
        exact hall (s' + j) (by omega) (by omega)
      · omega
    have hle : (runLens counts (listMaxN counts)).getD s' 0 ≤ L := by
      rw [hLa, hsa]
      exact argmaxFirst_le _ s'
    constructor
    · omega
    · intro heq
      have hgs : (runLens counts (listMaxN counts)).getD s' 0 =
          (runLens counts (listMaxN counts)).getD
            (argmaxFirst (runLens counts (listMaxN counts))) 0 := by
        rw [← hsa, ← hLa]
        omega
      have := argmaxFirst_first (runLens counts (listMaxN counts)) s'
        (by omega) hgs
      omega

/-- C6: peak detection samples the sorted set of distinct start/end
times of the group; at each sampled time it counts the trips with
start <= t < end (closed-open semantics, `count_active_trips`); the
reported window, by the spec-modelled `get_peak_indices`, attains the
maximum count throughout, and among windows of maximal count it is
longest, with the earliest start among longest; the spec example,
counts [1,2,2,1] at times [0,10,20,30], gives peak count 2 and window
(10,20). -/
theorem peak_window_detection (g : List TripStat) (hg : g ≠ []) :
    ((sampleTimes g).Sorted (· ≤ ·) ∧ (sampleTimes g).Nodup ∧
      (∀ t, t ∈ sampleTimes g ↔ ∃ x ∈ g, x.start_time = t ∨ x.end_time = t))
    ∧ (∀ t, count_active_trips g t =
        (g.filter (fun x =>
          decide (x.start_time ≤ t ∧ t < x.end_time))).length)
    ∧ ((get_peak_indices (peakCounts g)).1 ≤ (get_peak_indices (peakCounts g)).2
      ∧ (get_peak_indices (peakCounts g)).2 < (peakCounts g).length
      ∧ (peakCounts g).getD (get_peak_indices (peakCounts g)).1 0 =
          listMaxN (peakCounts g)
      ∧ (∀ i, (peakCounts g).getD i 0 ≤ listMaxN (peakCounts g))
      ∧ (∀ i, (get_peak_indices (peakCounts g)).1 ≤ i →
          i ≤ (get_peak_indices (peakCounts g)).2 →
          (peakCounts g).getD i 0 = listMaxN (peakCounts g))
      ∧ (∀ s e, s ≤ e → e < (peakCounts g).length →
          (∀ i, s ≤ i → i ≤ e →
            (peakCounts g).getD i 0 = listMaxN (peakCounts g)) →
          e - s ≤ (get_peak_indices (peakCounts g)).2 -
            (get_peak_indices (peakCounts g)).1
          ∧ (e - s = (get_peak_indices (peakCounts g)).2 -
              (get_peak_indices (peakCounts g)).1 →
              (get_peak_indices (peakCounts g)).1 ≤ s)))
    ∧ (get_peak_indices [1, 2, 2, 1] = (1, 2)
      ∧ [0, 10, 20, 30].getD (get_peak_indices [1, 2, 2, 1]).1 0 = 10
      ∧ [0, 10, 20, 30].getD (get_peak_indices [1, 2, 2, 1]).2 0 = 20
      ∧ listMaxN [1, 2, 2, 1] = 2) := by
  have hst : sampleTimes g ≠ [] := by
    obtain ⟨x, t, he⟩ := List.exists_cons_of_ne_nil hg
    have hx : x.start_time ∈ sampleTimes g := by
      simp only [sampleTimes, List.mem_dedup, List.mem_insertionSort,
        List.mem_append, List.mem_map]
      exact Or.inl ⟨x, by rw [he]; exact List.mem_cons_self _ _, rfl⟩
    exact List.ne_nil_of_mem hx
  refine ⟨⟨?_, ?_, ?_⟩, ?_, ?_, by decide⟩
  · exact List.Pairwise.sublist (List.dedup_sublist _)
      (List.sorted_insertionSort _ _)
  · exact List.nodup_dedup _
  · intro t
    simp only [sampleTimes, List.mem_dedup, List.mem_insertionSort,
      List.mem_append, List.mem_map]
    constructor
    · rintro (⟨x, hx, hxt⟩ | ⟨x, hx, hxt⟩)
      · exact ⟨x, hx, Or.inl hxt⟩
      · exact ⟨x, hx, Or.inr hxt⟩
    · rintro ⟨x, hx, hxt | hxt⟩
      · exact Or.inl ⟨x, hx, hxt⟩
      · exact Or.inr ⟨x, hx, hxt⟩
  · intro t
    rw [count_active_trips]
    congr 1
    apply List.filter_congr
    intro x hx
    simp [gt_iff_lt, Bool.decide_and]
  · have hc : peakCounts g ≠ [] := by
      simp only [peakCounts, ne_eq, List.map_eq_nil_iff]
      exact hst
    exact get_peak_indices_spec (peakCounts g) hc

/-- A group of two trips: one active on [0, 30), one on [10, 20); the
sampled times are 0, 10, 20, 30 with concurrency counts 1, 2, 1, 0. -/
def exPeakGroup : List TripStat :=
  [⟨1, 1, 1, 0, 0, 0, 30, 1, 1⟩, ⟨2, 1, 1, 0, 0, 10, 20, 1, 1⟩]

/-- Witness for C6: on the concrete two-trip group the sampled counts
are [1, 2, 1, 1] and the count at the start of the reported peak window
is the maximum count. -/
theorem peak_window_detection_witness :
    peakCounts exPeakGroup = [1, 2, 1, 0]
    ∧ (peakCounts exPeakGroup).getD
        (get_peak_indices (peakCounts exPeakGroup)).1 0 =
        listMaxN (peakCounts exPeakGroup) := by
  refine ⟨by decide, ?_⟩
  exact (peak_window_detection exPeakGroup (by decide)).2.2.1.2.2.1

/-- Binning of a time-of-day in seconds into a minute bin:
`(utils.timestr_to_seconds(x)//60) % (24*60)`, calculator.py lines
1019-1020 (24*60 written as 1440 here). -/
def binIndex (secs : Nat) : Nat := secs / 60 % 1440

/-- The bins a trip fills (calculator.py lines 1040-1044):
`bins[start:end]` when start <= end, else the wrap-around
`bins[start:] + bins[:end]`, with `bins = [0, ..., 1439]`. -/
def binsToFill (s e : Nat) : List Nat :=
  if s ≤ e then List.range' s (e - s)
  else List.range' s (1440 - s) ++ List.range e

/-- The four per-minute indicator series of one route. -/
structure RouteSeries where
  num_trip_starts : Nat → ℚ
  num_trips : Nat → ℚ
  service_duration : Nat → ℚ
  service_distance : Nat → ℚ

/-- Pointwise increment at one bin. -/
def addAt (f : Nat → ℚ) (i : Nat) (w : ℚ) : Nat → ℚ :=
  fun b => if b = i then f b + w else f b

/-- Increment every bin of a list by a weight, as the inner
`for bin in bins_to_fill` loop does (calculator.py lines 1057-1058). -/
def addOver (f : Nat → ℚ) (l : List Nat) (w : ℚ) : Nat → ℚ :=
  l.foldl (fun g i => addAt g i w) f

/-- Embedding of one iteration of the binning loop of
`compute_routes_time_series_base` (calculator.py lines 1030-1058): skip
the trip when its binned start equals its binned end, else add 1 to the
start bin of the trip-start series and add the per-indicator weight
(1 for num_trips, 1/60 for service_duration, distance split evenly for
service_distance) to every filled bin. -/
def binTrip (acc : RouteSeries) (t : TripStat) : RouteSeries :=
  if binIndex t.start_time = binIndex t.end_time then acc
  else
    { num_trip_starts := addAt acc.num_trip_starts (binIndex t.start_time) 1
    , num_trips :=
        addOver acc.num_trips
          (binsToFill (binIndex t.start_time) (binIndex t.end_time)) 1
    , service_duration :=
        addOver acc.service_duration
          (binsToFill (binIndex t.start_time) (binIndex t.end_time)) (1 / 60)
    , service_distance :=
        addOver acc.service_distance
          (binsToFill (binIndex t.start_time) (binIndex t.end_time))
          (t.distance /
            ((binsToFill (binIndex t.start_time)
                (binIndex t.end_time)).length : ℚ)) }

/-- The all-zero series. -/
def zeroSeries : RouteSeries :=
  ⟨fun _ => 0, fun _ => 0, fun _ => 0, fun _ => 0⟩

/-- Embedding of the binning phase of `compute_routes_time_series_base`
for the rows of one route: fold the loop body over the rows. -/
def routeMinuteSeries (rows : List TripStat) : RouteSeries :=
  rows.foldl binTrip zeroSeries

/-- Definition following the words of the spec (C4): a bin b is filled
by a trip binned to start s and end e (by integer division by 60 and
reduction modulo 1440) when s <= e and b lies in [s, e), or when s > e
and b lies in the wrap-around range [s, 1440) ∪ [0, e). -/
def specFilled (t : TripStat) (b : Nat) : Bool :=
  let s := t.start_time / 60 % 1440
  let e := t.end_time / 60 % 1440
  if s ≤ e then decide (s ≤ b ∧ b < e)
  else decide ((s ≤ b ∧ b < 1440) ∨ b < e)

/-- Definition following the words of the spec (C4): the number of
filled bins of a trip. -/
def specNumFilled (t : TripStat) : Nat :=
  let s := t.start_time / 60 % 1440
  let e := t.end_time / 60 % 1440
  if s ≤ e then e - s else (1440 - s) + e

/-- Definition following the words of the spec (C4): contribution of a
trip to the trip-start count of bin b: 1 exactly on the start bin of a
non-skipped trip. -/
def specStartContrib (t : TripStat) (b : Nat) : ℚ :=
  if t.start_time / 60 % 1440 = t.end_time / 60 % 1440 then 0
  else if b = t.start_time / 60 % 1440 then 1 else 0

/-- Definition following the words of the spec (C4): contribution of a
trip to the concurrent-trip count of bin b: 1 on every filled bin. -/
def specTripsContrib (t : TripStat) (b : Nat) : ℚ :=
  if t.start_time / 60 % 1440 = t.end_time / 60 % 1440 then 0
  else if specFilled t b then 1 else 0

/-- Definition following the words of the spec (C4): contribution of a
trip to the service duration of bin b: 1/60 on every filled bin. -/
def specDurationContrib (t : TripStat) (b : Nat) : ℚ :=
  if t.start_time / 60 % 1440 = t.end_time / 60 % 1440 then 0
  else if specFilled t b then 1 / 60 else 0

/-- Definition following the words of the spec (C4): contribution of a
trip to the service distance of bin b: the trip distance divided by the
number of filled bins, on every filled bin. -/
def specDistanceContrib (t : TripStat) (b : Nat) : ℚ :=
  if t.start_time / 60 % 1440 = t.end_time / 60 % 1440 then 0
  else if specFilled t b then t.distance / (specNumFilled t : ℚ) else 0

theorem mem_binsToFill (s e b : Nat) (hs : s < 1440) :
    b ∈ binsToFill s e ↔
      (if s ≤ e then s ≤ b ∧ b < e else (s ≤ b ∧ b < 1440) ∨ b < e) := by
  rw [binsToFill]
  by_cases hse : s ≤ e
  · rw [if_pos hse, if_pos hse, List.mem_range'_1]
    omega
  · rw [if_neg hse, if_neg hse, List.mem_append, List.mem_range'_1,
      List.mem_range]
    omega

theorem nodup_binsToFill (s e : Nat) :
    (binsToFill s e).Nodup := by
  rw [binsToFill]
  by_cases hse : s ≤ e
  · rw [if_pos hse]
    exact List.nodup_range' s (e - s) 1 Nat.one_pos
  · rw [if_neg hse]
    apply List.Nodup.append
    · exact List.nodup_range' s (1440 - s) 1 Nat.one_pos
    · exact List.nodup_range e
    · intro x hx hx2
      rw [List.mem_range'_1] at hx
      rw [List.mem_range] at hx2
      omega

theorem length_binsToFill (s e : Nat) :
    (binsToFill s e).length = if s ≤ e then e - s else (1440 - s) + e := by
  rw [binsToFill]
  by_cases hse : s ≤ e
  · rw [if_pos hse, if_pos hse, List.length_range']
  · rw [if_neg hse, if_neg hse, List.length_append, List.length_range',
      List.length_range]

theorem addAt_apply (f : Nat → ℚ) (i : Nat) (w : ℚ) (b : Nat) :
    addAt f i w b = f b + (if b = i then w else 0) := by
  rw [addAt]
  by_cases h : b = i
  · rw [if_pos h, if_pos h]
  · rw [if_neg h, if_neg h, add_zero]

theorem addOver_apply (l : List Nat) (hl : l.Nodup) (f : Nat → ℚ) (w : ℚ)
    (b : Nat) : addOver f l w b = f b + (if b ∈ l then w else 0) := by
  induction l generalizing f with
  | nil => simp [addOver]
  | cons i l ih =>
    have hl2 : l.Nodup := hl.of_cons
    have hni : i ∉ l := by
      intro hmem
      exact (List.nodup_cons.mp hl).1 hmem
    rw [addOver, List.foldl_cons]
    rw [show List.foldl (fun g i => addAt g i w) (addAt f i w) l =
      addOver (addAt f i w) l w from rfl]
    rw [ih hl2, addAt_apply]
    by_cases hbi : b = i
    · have hbl : b ∉ l := by
        rw [hbi]
        exact hni
      rw [if_pos hbi, if_neg hbl, if_pos (by rw [hbi]; exact List.mem_cons_self _ _)]
      ring
    · rw [if_neg hbi, add_zero]
      by_cases hbl : b ∈ l
      · rw [if_pos hbl, if_pos (List.mem_cons_of_mem i hbl)]
      · rw [if_neg hbl, if_neg (by simp [List.mem_cons, hbi, hbl])]

theorem specFilled_iff (t : TripStat) (b : Nat) :
    specFilled t b = true ↔
      (if t.start_time / 60 % 1440 ≤ t.end_time / 60 % 1440
       then t.start_time / 60 % 1440 ≤ b ∧ b < t.end_time / 60 % 1440
       else (t.start_time / 60 % 1440 ≤ b ∧ b < 1440) ∨
         b < t.end_time / 60 % 1440) := by
  rw [specFilled]
  by_cases h : t.start_time / 60 % 1440 ≤ t.end_time / 60 % 1440
  · rw [if_pos h, if_pos h, decide_eq_true_eq]
  · rw [if_neg h, if_neg h, decide_eq_true_eq]

theorem binTrip_apply (acc : RouteSeries) (t : TripStat) (b : Nat) :
    (binTrip acc t).num_trip_starts b =
      acc.num_trip_starts b + specStartContrib t b
    ∧ (binTrip acc t).num_trips b = acc.num_trips b + specTripsContrib t b
    ∧ (binTrip acc t).service_duration b =
        acc.service_duration b + specDurationContrib t b
    ∧ (binTrip acc t).service_distance b =
        acc.service_distance b + specDistanceContrib t b := by
  by_cases hse : binIndex t.start_time = binIndex t.end_time
  · have hse2 : t.start_time / 60 % 1440 = t.end_time / 60 % 1440 := hse
    rw [binTrip, if_pos hse]
    simp [specStartContrib, specTripsContrib, specDurationContrib,
      specDistanceContrib, hse2]
  · have hse2 : ¬(t.start_time / 60 % 1440 = t.end_time / 60 % 1440) := hse
    have hnodup := nodup_binsToFill (binIndex t.start_time)
      (binIndex t.end_time)
    have hslt : binIndex t.start_time < 1440 :=
      Nat.mod_lt _ (by norm_num)
    have hmem := mem_binsToFill (binIndex t.start_time)
      (binIndex t.end_time) b hslt
    rw [binTrip, if_neg hse]
    simp only [binIndex] at hnodup hmem ⊢
    have hiff : b ∈ binsToFill (t.start_time / 60 % 1440)
        (t.end_time / 60 % 1440) ↔ specFilled t b = true :=
      hmem.trans (specFilled_iff t b).symm
    have hlen : ((binsToFill (t.start_time / 60 % 1440)
        (t.end_time / 60 % 1440)).length : ℚ) = (specNumFilled t : ℚ) := by
      rw [length_binsToFill]
      rfl
    refine ⟨?_, ?_, ?_, ?_⟩
    · rw [addAt_apply, specStartContrib, if_neg hse2]
    · rw [addOver_apply _ hnodup, specTripsContrib, if_neg hse2]
      congr 1
      exact if_congr hiff rfl rfl
    · rw [addOver_apply _ hnodup, specDurationContrib, if_neg hse2]
      congr 1
      exact if_congr hiff rfl rfl
    · rw [addOver_apply _ hnodup, specDistanceContrib, if_neg hse2]
      congr 1
      exact if_congr hiff (by rw [hlen]) rfl

theorem foldl_binTrip_apply (rows : List TripStat) (b : Nat) :
    ∀ acc : RouteSeries,
      (rows.foldl binTrip acc).num_trip_starts b =
        acc.num_trip_starts b +
          (rows.map (fun t => specStartContrib t b)).sum
      ∧ (rows.foldl binTrip acc).num_trips b =
          acc.num_trips b + (rows.map (fun t => specTripsContrib t b)).sum
      ∧ (rows.foldl binTrip acc).service_duration b =
          acc.service_duration b +
            (rows.map (fun t => specDurationContrib t b)).sum
      ∧ (rows.foldl binTrip acc).service_distance b =
          acc.service_distance b +
            (rows.map (fun t => specDistanceContrib t b)).sum := by
  induction rows with
  | nil =>
    intro acc
    simp
  | cons t rows ih =>
    intro acc
    rw [List.foldl_cons]
    obtain ⟨h1, h2, h3, h4⟩ := ih (binTrip acc t)
    obtain ⟨g1, g2, g3, g4⟩ := binTrip_apply acc t b
    refine ⟨?_, ?_, ?_, ?_⟩ <;>
      simp only [List.map_cons, List.sum_cons, h1, h2, h3, h4, g1, g2, g3,
        g4] <;> ring

/-- C4: for every list of trip rows and every bin, the accumulated
minute series of `compute_routes_time_series_base` equals the sum of the
per-trip closed-form contributions stated by the spec: start and end
binned by division by 60 and reduction modulo 1440; a trip with equal
binned start and end contributes nothing; otherwise the trip fills
[start, end) or the wrap-around [start, 1440) ∪ [0, end); per filled
trip the trip-start count gains 1 only at the start bin, the
concurrent-trip count gains 1, the service duration 1/60, and the
service distance distance/(number of filled bins) at every filled
bin. -/
theorem routes_time_series_binning (rows : List TripStat) (b : Nat) :
    (routeMinuteSeries rows).num_trip_starts b =
      (rows.map (fun t => specStartContrib t b)).sum
    ∧ (routeMinuteSeries rows).num_trips b =
        (rows.map (fun t => specTripsContrib t b)).sum
    ∧ (routeMinuteSeries rows).service_duration b =
        (rows.map (fun t => specDurationContrib t b)).sum
    ∧ (routeMinuteSeries rows).service_distance b =
        (rows.map (fun t => specDistanceContrib t b)).sum := by
  obtain ⟨h1, h2, h3, h4⟩ := foldl_binTrip_apply rows b zeroSeries
  rw [routeMinuteSeries]
  refine ⟨?_, ?_, ?_, ?_⟩
  · rw [h1]
    simp [zeroSeries]
  · rw [h2]
    simp [zeroSeries]
  · rw [h3]
    simp [zeroSeries]
  · rw [h4]
    simp [zeroSeries]

/-- A route-column or feed time series frame: `freq` minutes per row,
`len` rows, one function per indicator column (for a routes series these
are the columns of one route; `downsample` acts columnwise). -/
structure TimeSeries where
  freq : Nat
  len : Nat
  num_trip_starts : Nat → ℚ
  num_trips : Nat → ℚ
  service_duration : Nat → ℚ
  service_distance : Nat → ℚ
  service_speed : Nat → ℚ

/-- The row indices of coarse window j when resampling to `t` minutes:
the rows whose timestamp (freq * i minutes past midnight) falls in
[j*t, (j+1)*t), which is how the Pandas resampling buckets rows. -/
def windowRows (ts : TimeSeries) (t j : Nat) : List Nat :=
  (List.range ts.len).filter (fun i => ts.freq * i / t = j)

/-- Sum of a column over a list of row indices. -/
def sumOver (f : Nat → ℚ) (l : List Nat) : ℚ := (l.map f).sum

/-- Embedding of `downsample` (calculator.py lines 1812-1870) for route
and feed series: the input is returned unchanged when it is empty or
the target offset is shorter than the native frequency; otherwise
num_trip_starts, service_duration and service_distance are summed per
window, num_trips is averaged, and service_speed is recomputed from the
resampled distance and duration (the input speed column is dropped by
the `how` dictionary, never resampled). -/
def downsample (ts : TimeSeries) (t : Nat) : TimeSeries :=
  if ts.len = 0 ∨ t < ts.freq then ts
  else
    { freq := t
    , len := ts.freq * (ts.len - 1) / t + 1
    , num_trip_starts := fun j =>
        sumOver ts.num_trip_starts (windowRows ts t j)
    , num_trips := fun j =>
        sumOver ts.num_trips (windowRows ts t j) /
          ((windowRows ts t j).length : ℚ)
    , service_duration := fun j =>
        sumOver ts.service_duration (windowRows ts t j)
    , service_distance := fun j =>
        sumOver ts.service_distance (windowRows ts t j)
    , service_speed := fun j =>
        sumOver ts.service_distance (windowRows ts t j) /
          sumOver ts.service_duration (windowRows ts t j) }

/-- C5: downsample never refines: a target frequency strictly finer than
the native one returns the input unchanged.  Otherwise, on a nonempty
series with positive native frequency, window j consists exactly of the
rows whose timestamps lie in [j*t, (j+1)*t); trip starts, duration and
distance are the window sums, the concurrent-trip count is the window
mean, the speed of every window is the summed distance divided by the
summed duration, and the input speed column never influences the
result. -/
theorem downsample_spec (ts : TimeSeries) (t : Nat) :
    (t < ts.freq → downsample ts t = ts)
    ∧ (ts.len ≠ 0 → 0 < ts.freq → ts.freq ≤ t →
        (∀ j i, i ∈ windowRows ts t j ↔
          i < ts.len ∧ j * t ≤ ts.freq * i ∧ ts.freq * i < (j + 1) * t)
        ∧ (∀ j, (downsample ts t).num_trip_starts j =
            sumOver ts.num_trip_starts (windowRows ts t j))
        ∧ (∀ j, (downsample ts t).num_trips j =
            sumOver ts.num_trips (windowRows ts t j) /
              ((windowRows ts t j).length : ℚ))
        ∧ (∀ j, (downsample ts t).service_duration j =
            sumOver ts.service_duration (windowRows ts t j))
        ∧ (∀ j, (downsample ts t).service_distance j =
            sumOver ts.service_distance (windowRows ts t j))
        ∧ (∀ j, (downsample ts t).service_speed j =
            (downsample ts t).service_distance j /
              (downsample ts t).service_duration j)
        ∧ (∀ g : Nat → ℚ,
            downsample
              { ts with service_speed := g } t =
              downsample ts t)) := by
  constructor
  · intro hlt
    rw [downsample, if_pos (Or.inr hlt)]
  · intro hlen hfreq hle
    have ht : 0 < t := lt_of_lt_of_le hfreq hle
    have hguard : ¬(ts.len = 0 ∨ t < ts.freq) := by
      push_neg
      exact ⟨hlen, not_lt.mp (by omega)⟩
    refine ⟨?_, ?_, ?_, ?_, ?_, ?_, ?_⟩
    · intro j i
      rw [windowRows, List.mem_filter, List.mem_range, decide_eq_true_eq]
      constructor
      · rintro ⟨hi, hdiv⟩
        refine ⟨hi, ?_, ?_⟩
        · rw [← hdiv]
          exact Nat.div_mul_le_self _ t
        · rw [← hdiv]
          calc ts.freq * i
              = t * (ts.freq * i / t) + ts.freq * i % t :=
                (Nat.div_add_mod _ t).symm
            _ < t * (ts.freq * i / t) + t := by
                have := Nat.mod_lt (ts.freq * i) ht
                omega
            _ = (ts.freq * i / t + 1) * t := by ring
      · rintro ⟨hi, hlo, hhi⟩
        exact ⟨hi, Nat.div_eq_of_lt_le hlo hhi⟩
    · intro j
      rw [downsample, if_neg hguard]
    · intro j
      rw [downsample, if_neg hguard]
    · intro j
      rw [downsample, if_neg hguard]
    · intro j
      rw [downsample, if_neg hguard]
    · intro j
      rw [downsample, if_neg hguard]
    · intro g
      rw [downsample, downsample, if_neg hguard, if_neg hguard]
      rfl

/-- A concrete hourly-binnable series: two one-minute rows. -/
def exSeries : TimeSeries :=
  { freq := 1
  , len := 2
  , num_trip_starts := fun i => if i = 0 then 1 else 2
  , num_trips := fun i => if i = 0 then 1 else 3
  , service_duration := fun i => if i = 0 then 1 else 1
  , service_distance := fun i => if i = 0 then 4 else 2
  , service_speed := fun _ => 100 }

/-- Witness for C5: downsampling the two-minute series to 2 minutes
collapses it into one window with summed starts 3, mean count 2, summed
distance 6 over summed duration 2, speed 3 (ignoring the bogus input
speed 100); downsampling to a finer target (0 minutes) is refused and
returns the input unchanged. -/
theorem downsample_spec_witness :
    downsample exSeries 0 = exSeries
    ∧ windowRows exSeries 2 0 = [0, 1]
    ∧ (downsample exSeries 2).num_trip_starts 0 = 3
    ∧ (downsample exSeries 2).num_trips 0 = 2
    ∧ (downsample exSeries 2).service_speed 0 = 3 := by
  have h := downsample_spec exSeries 0
  have h2 := (downsample_spec exSeries 2).2 (by decide) (by decide) (by decide)
  refine ⟨h.1 (by decide), by decide, ?_, ?_, ?_⟩
  · rw [h2.2.1 0]
    have hw : windowRows exSeries 2 0 = [0, 1] := by decide
    rw [hw]
    norm_num [sumOver, exSeries]
  · rw [h2.2.2.1 0]
    have hw : windowRows exSeries 2 0 = [0, 1] := by decide
    rw [hw]
    norm_num [sumOver, exSeries]
  · rw [h2.2.2.2.2.2.1 0]
    rw [h2.2.2.2.2.1 0, h2.2.2.2.1 0]
    have hw : windowRows exSeries 2 0 = [0, 1] := by decide
    rw [hw]
    norm_num [sumOver, exSeries]

/-- Minimum of a list of naturals, 0 on the empty list. -/
def listMinN : List Nat → Nat
  | [] => 0
  | a :: t => t.foldl min a

/-- A row of the routes stats output frame. -/
structure RouteStatsRow where
  route_id : Nat
  route_short_name : Nat
  num_trips : Nat
  is_loop : Nat
  is_bidirectional : Nat
  start_time : Nat
  end_time : Nat
  max_headway : Option ℚ
  min_headway : Option ℚ
  mean_headway : Option ℚ
  peak_num_trips : Nat
  peak_start_time : Nat
  peak_end_time : Nat
  service_duration : ℚ
  service_distance : ℚ
  service_speed : ℚ
  mean_trip_distance : ℚ
  mean_trip_duration : ℚ
  direction_id : Option Nat
deriving DecidableEq

/-- The routes stats output frame: column labels plus rows. -/
structure RouteStatsFrame where
  columns : List String
  rows : List RouteStatsRow
deriving DecidableEq

/-- The `cols` list of `compute_routes_stats_base` (calculator.py lines
774-796): the direction_id column is appended when splitting. -/
def routesStatsColumns (split : Bool) : List String :=
  ["route_id", "route_short_name", "num_trips", "is_loop",
   "is_bidirectional", "start_time", "end_time", "max_headway",
   "min_headway", "mean_headway", "peak_num_trips", "peak_start_time",
   "peak_end_time", "service_duration", "service_distance",
   "service_speed", "mean_trip_distance", "mean_trip_duration"] ++
  (if split then ["direction_id"] else [])

/-- Sorted distinct route keys of a trip stats subset (Pandas groupby
sorts its keys). -/
def routeKeys (tss : List TripStat) : List Nat :=
  (List.insertionSort (· ≤ ·) (tss.map TripStat.route_id)).dedup

/-- Sorted distinct (route, direction) keys. -/
def routeDirKeys (tss : List TripStat) : List (Nat × Nat) :=
  (List.insertionSort
    (fun a b => a.1 < b.1 ∨ (a.1 = b.1 ∧ a.2 ≤ b.2))
    (tss.map (fun t => (t.route_id, t.direction_id)))).dedup

/-- Number of distinct direction values among the trips of a route. -/
def distinctDirections (tss : List TripStat) (rid : Nat) : Nat :=
  (((tss.filter (fun t => t.route_id == rid)).map
    TripStat.direction_id).dedup).length

/-- The junk row used as the `iat[0]` default (never read on a nonempty
group). -/
def defaultTripStat : TripStat := ⟨0, 0, 0, 0, 0, 0, 0, 0, 0⟩

/-- One row of `compute_route_stats` (no direction split), calculator.py
lines 845-882 plus the derived columns of lines 901-904. -/
def computeRouteStatsNoSplitRow (tss : List TripStat) (rid hs he : Nat) :
    RouteStatsRow :=
  let g := tss.filter (fun t => t.route_id == rid)
  let hw := route_stats_nosplit_headways g hs he
  let times := sampleTimes g
  let counts := peakCounts g
  let p := get_peak_indices counts
  let dist := (g.map TripStat.distance).sum
  let dur := (g.map TripStat.duration).sum
  { route_id := rid
  , route_short_name := (g.headD defaultTripStat).route_short_name
  , num_trips := g.length
  , is_loop := if g.any (fun t => t.is_loop != 0) then 1 else 0
  , is_bidirectional := if 1 < distinctDirections tss rid then 1 else 0
  , start_time := listMinN (g.map TripStat.start_time)
  , end_time := listMaxN (g.map TripStat.end_time)
  , max_headway := hw.map (fun x => x.1)
  , min_headway := hw.map (fun x => x.2.1)
  , mean_headway := hw.map (fun x => x.2.2)
  , peak_num_trips := counts.getD p.1 0
  , peak_start_time := times.getD p.1 0
  , peak_end_time := times.getD p.2 0
  , service_duration := dur
  , service_distance := dist
  , service_speed := dist / dur
  , mean_trip_distance := dist / (g.length : ℚ)
  , mean_trip_duration := dur / (g.length : ℚ)
  , direction_id := none }

/-- One row of `compute_route_stats_split_directions`, calculator.py
lines 809-843, with the is_bidirectional merge of lines 888-896 and the
derived columns of lines 901-904. -/
def computeRouteStatsSplitRow (tss : List TripStat) (rid dir hs he : Nat) :
    RouteStatsRow :=
  let g := tss.filter (fun t => t.route_id == rid && t.direction_id == dir)
  let hw := route_stats_split_headways g hs he
  let times := sampleTimes g
  let counts := peakCounts g
  let p := get_peak_indices counts
  let dist := (g.map TripStat.distance).sum
  let dur := (g.map TripStat.duration).sum
  { route_id := rid
  , route_short_name := (g.headD defaultTripStat).route_short_name
  , num_trips := g.length
  , is_loop := if g.any (fun t => t.is_loop != 0) then 1 else 0
  , is_bidirectional := if 1 < distinctDirections tss rid then 1 else 0
  , start_time := listMinN (g.map TripStat.start_time)
  , end_time := listMaxN (g.map TripStat.end_time)
  , max_headway := hw.map (fun x => x.1)
  , min_headway := hw.map (fun x => x.2.1)
  , mean_headway := hw.map (fun x => x.2.2)
  , peak_num_trips := counts.getD p.1 0
  , peak_start_time := times.getD p.1 0
  , peak_end_time := times.getD p.2 0
  , service_duration := dur
  , service_distance := dist
  , service_speed := dist / dur
  , mean_trip_distance := dist / (g.length : ℚ)
  , mean_trip_duration := dur / (g.length : ℚ)
  , direction_id := some dir }

/-- Embedding of `compute_routes_stats_base` (calculator.py lines
720-911): an empty trip stats subset yields the empty frame carrying
the full column list; otherwise one row per (sorted) group key. -/
def compute_routes_stats_base (tss : List TripStat) (split : Bool)
    (hs he : Nat) : RouteStatsFrame :=
  if tss = [] then ⟨routesStatsColumns split, []⟩
  else if split then
    ⟨routesStatsColumns split,
     (routeDirKeys tss).map
       (fun k => computeRouteStatsSplitRow tss k.1 k.2 hs he)⟩
  else
    ⟨routesStatsColumns split,
     (routeKeys tss).map (fun k => computeRouteStatsNoSplitRow tss k hs he)⟩

/-- A row of the raw stop_times table with the departure time already in
seconds (the string conversion `utils.timestr_to_seconds` applied on
entry to `compute_stops_stats_base` is external to src/). -/
structure StopTimeIn where
  trip_id : Nat
  stop_id : Nat
  departure_time : Nat
deriving DecidableEq

/-- The inner join `stop_times.merge(trips_subset)` (calculator.py line
1230), looking up each stop-time row's trip (trip_id is a key). -/
def mergeStopTrips (st : List StopTimeIn) (trips : List Trip) :
    List StopTimeSec :=
  st.filterMap (fun r =>
    (trips.find? (fun t => t.trip_id == r.trip_id)).map
      (fun t => ⟨r.trip_id, r.stop_id, t.route_id, t.direction_id,
        r.departure_time⟩))

/-- A row of the stops stats output frame. -/
structure StopStatsRow where
  stop_id : Nat
  num_routes : Nat
  num_trips : Nat
  max_headway : Option ℚ
  min_headway : Option ℚ
  mean_headway : Option ℚ
  start_time : Nat
  end_time : Nat
  direction_id : Option Nat
deriving DecidableEq

/-- The stops stats output frame. -/
structure StopStatsFrame where
  columns : List String
  rows : List StopStatsRow
deriving DecidableEq

/-- The `cols` list of `compute_stops_stats_base` (calculator.py lines
1213-1225). -/
def stopsStatsColumns (split : Bool) : List String :=
  ["stop_id", "num_routes", "num_trips", "max_headway", "min_headway",
   "mean_headway", "start_time", "end_time"] ++
  (if split then ["direction_id"] else [])

/-- Sorted distinct stop keys of the joined frame. -/
def stopKeys (f : List StopTimeSec) : List Nat :=
  (List.insertionSort (· ≤ ·) (f.map StopTimeSec.stop_id)).dedup

/-- Sorted distinct (stop, direction) keys of the joined frame. -/
def stopDirKeys (f : List StopTimeSec) : List (Nat × Nat) :=
  (List.insertionSort
    (fun a b => a.1 < b.1 ∨ (a.1 = b.1 ∧ a.2 ≤ b.2))
    (f.map (fun r => (r.stop_id, r.direction_id)))).dedup

/-- One row of `compute_stop_stats` (calculator.py lines 1239-1259) for
a given group of joined rows. -/
def computeStopStatsRow (g : List StopTimeSec) (sid : Nat)
    (dir : Option Nat) (hs he : Nat) : StopStatsRow :=
  let hw := stop_stats_headways g hs he
  { stop_id := sid
  , num_routes := ((g.map StopTimeSec.route_id).dedup).length
  , num_trips := g.length
  , max_headway := hw.map (fun x => x.1)
  , min_headway := hw.map (fun x => x.2.1)
  , mean_headway := hw.map (fun x => x.2.2)
  , start_time := listMinN (g.map StopTimeSec.departure_time)
  , end_time := listMaxN (g.map StopTimeSec.departure_time)
  , direction_id := dir }

/-- Embedding of `compute_stops_stats_base` (calculator.py lines
1184-1273): an empty trips subset yields the empty frame carrying the
full column list; otherwise one row per (sorted) group key of the
stop_times/trips join. -/
def compute_stops_stats_base (st : List StopTimeIn) (trips : List Trip)
    (split : Bool) (hs he : Nat) : StopStatsFrame :=
  if trips = [] then ⟨stopsStatsColumns split, []⟩
  else
    let f := mergeStopTrips st trips
    if split then
      ⟨stopsStatsColumns split,
       (stopDirKeys f).map (fun k =>
         computeStopStatsRow
           (f.filter (fun r => r.stop_id == k.1 && r.direction_id == k.2))
           k.1 (some k.2) hs he)⟩
    else
      ⟨stopsStatsColumns split,
       (stopKeys f).map (fun k =>
         computeStopStatsRow (f.filter (fun r => r.stop_id == k)) k
           none hs he)⟩

/-- Embedding of `get_trips` for a date and no time (calculator.py lines
409-425): the trips active on the date. -/
def get_trips_on (feed : Feed) (d : Date) : List Trip :=
  feed.trips.filter (fun t => is_active_trip feed t.trip_id d)

/-- A row of the feed stats output frame. -/
structure FeedStatsRow where
  num_trips : Nat
  num_routes : Nat
  num_stops : Nat
  peak_num_trips : Nat
  peak_start_time : Nat
  peak_end_time : Nat
  service_distance : ℚ
  service_duration : ℚ
  service_speed : ℚ
deriving DecidableEq

/-- The feed stats output frame. -/
structure FeedStatsFrame where
  columns : List String
  rows : List FeedStatsRow
deriving DecidableEq

/-- The `cols` list of `compute_feed_stats` (calculator.py lines
1715-1725). -/
def feedStatsColumns : List String :=
  ["num_trips", "num_routes", "num_stops", "peak_num_trips",
   "peak_start_time", "peak_end_time", "service_distance",
   "service_duration", "service_speed"]

/-- Embedding of `compute_feed_stats` (calculator.py lines 1693-1754):
empty frame with the full column list when no trip is active on the
date; otherwise one row of feed-wide stats. -/
def compute_feed_stats (feed : Feed) (trips_stats : List TripStat)
    (d : Date) : FeedStatsFrame :=
  if get_trips_on feed d = [] then ⟨feedStatsColumns, []⟩
  else
    let trips := get_trips_on feed d
    let f := trips_stats.filter
      (fun s => trips.any (fun t => t.trip_id == s.trip_id))
    let activeStops := (feed.stop_times.filter
      (fun r => trips.any (fun t => t.trip_id == r.trip_id))).map
        StopTimeRaw.stop_id
    let counts := peakCounts f
    let times := sampleTimes f
    let p := get_peak_indices counts
    let dist := (f.map TripStat.distance).sum
    let dur := (f.map TripStat.duration).sum
    ⟨feedStatsColumns,
     [{ num_trips := trips.length
      , num_routes := (feed.routes.filter (fun r =>
          trips.any (fun t => t.route_id == r.route_id))).length
      , num_stops := (feed.stops.filter (fun s =>
          activeStops.any (fun x => x == s.stop_id))).length
      , peak_num_trips := counts.getD p.1 0
      , peak_start_time := times.getD p.1 0
      , peak_end_time := times.getD p.2 0
      , service_distance := dist
      , service_duration := dur
      , service_speed := dist / dur }]⟩

/-- The documented column set of the route stats (docstring of
`compute_routes_stats_base`, calculator.py lines 726-761; direction_id
is documented and removed when not splitting, lines 763-765). -/
def specRouteStatsColumns (split : Bool) : List String :=
  ["route_id", "route_short_name"] ++
  (if split then ["direction_id"] else []) ++
  ["num_trips", "is_loop", "is_bidirectional", "start_time", "end_time",
   "max_headway", "min_headway", "mean_headway", "peak_num_trips",
   "peak_start_time", "peak_end_time", "service_duration",
   "service_distance", "service_speed", "mean_trip_distance",
   "mean_trip_duration"]

/-- The documented column set of the stop stats (docstring of
`compute_stops_stats_base`, calculator.py lines 1191-1205). -/
def specStopStatsColumns (split : Bool) : List String :=
  ["stop_id"] ++ (if split then ["direction_id"] else []) ++
  ["num_routes", "num_trips", "max_headway", "min_headway",
   "mean_headway", "start_time", "end_time"]

/-- The documented column set of the feed stats (docstring of
`compute_feed_stats`, calculator.py lines 1700-1710). -/
def specFeedStatsColumns : List String :=
  ["num_trips", "num_routes", "num_stops", "peak_num_trips",
   "peak_start_time", "peak_end_time", "service_distance",
   "service_duration", "service_speed"]

/-- C8: on empty input every aggregation returns an empty frame whose
column list is a permutation of (so omits nothing from) the documented
column set, including direction_id exactly when splitting. -/
theorem empty_input_full_columns (split : Bool) (hs he : Nat)
    (st : List StopTimeIn) (feed : Feed) (trips_stats : List TripStat)
    (d : Date) :
    compute_routes_stats_base [] split hs he =
      ⟨routesStatsColumns split, []⟩
    ∧ (routesStatsColumns split).Perm (specRouteStatsColumns split)
    ∧ compute_stops_stats_base st [] split hs he =
        ⟨stopsStatsColumns split, []⟩
    ∧ (stopsStatsColumns split).Perm (specStopStatsColumns split)
    ∧ (get_trips_on feed d = [] →
        compute_feed_stats feed trips_stats d = ⟨feedStatsColumns, []⟩)
    ∧ feedStatsColumns = specFeedStatsColumns := by
  refine ⟨rfl, ?_, rfl, ?_, ?_, rfl⟩
  · cases split <;> decide
  · cases split <;> decide
  · intro h
    rw [compute_feed_stats, if_pos h]

/-- Witness for C8: on 20200201 (outside the calendar range of
`exCalFeed`, no exception) no trip is active, and the feed stats frame
is empty with the nine documented columns. -/
theorem empty_input_full_columns_witness :
    get_trips_on exCalFeed ⟨20200201, 5⟩ = []
    ∧ compute_feed_stats exCalFeed [] ⟨20200201, 5⟩ =
        ⟨feedStatsColumns, []⟩ := by
  refine ⟨by decide, ?_⟩
  exact (empty_input_full_columns false 0 0 [] exCalFeed []
    ⟨20200201, 5⟩).2.2.2.2.1 (by decide)

/-- Python comparison of two raw departure-time cells: comparing the
float NaN with a string raises TypeError (modelled by `Except.error`);
two strings compare lexicographically; two NaN floats compare fine
(NaN <= NaN is False). -/
def pyLe : PyVal → PyVal → Except Unit Bool
  | PyVal.timestr a, PyVal.timestr b => Except.ok (decide (a ≤ b))
  | PyVal.nan, PyVal.nan => Except.ok false
  | _, _ => Except.error ()

/-- Pandas Series.min on an object column: NaN entries are skipped; an
all-NaN or empty column gives NaN. -/
def seriesMin (l : List PyVal) : PyVal :=
  match l.filterMap (fun v => match v with
    | PyVal.timestr s => some s
    | PyVal.nan => none) with
  | [] => PyVal.nan
  | a :: t => PyVal.timestr (t.foldl min a)

/-- Pandas Series.max on an object column, NaN entries skipped. -/
def seriesMax (l : List PyVal) : PyVal :=
  match l.filterMap (fun v => match v with
    | PyVal.timestr s => some s
    | PyVal.nan => none) with
  | [] => PyVal.nan
  | a :: t => PyVal.timestr (t.foldl max a)

/-- The chained comparison `start <= time <= end` inside the try block
of F (calculator.py lines 431-438): Python evaluates `start <= time`
first and evaluates the second comparison only when the first is
True. -/
def spanCompare (dtimes : List PyVal) (time : PyVal) : Except Unit Bool :=
  match pyLe (seriesMin dtimes) time with
  | Except.error e => Except.error e
  | Except.ok false => Except.ok false
  | Except.ok true => pyLe time (seriesMax dtimes)

/-- The is_active result of F for one trip group (calculator.py lines
435-438): the TypeError of the chained comparison is caught and mapped
to False. -/
def tripActiveAtTime (dtimes : List PyVal) (time : PyVal) : Bool :=
  match spanCompare dtimes time with
  | Except.ok b => b
  | Except.error _ => false

/-- The raw departure times of one trip in the stop_times table. -/
def departureTimes (feed : Feed) (trip : Nat) : List PyVal :=
  (feed.stop_times.filter (fun r => r.trip_id == trip)).map
    StopTimeRaw.departure_time

/-- Embedding of `get_trips` with a date and a time (calculator.py
lines 409-446): the trips active on the date whose stop-times span
covers the time.  A trip with no stop-times rows drops out of the inner
merge in the source; here its empty departure list yields a NaN minimum,
an erroring comparison and exclusion, the same outcome. -/
def get_trips_at (feed : Feed) (d : Date) (time : PyVal) : List Trip :=
  (get_trips_on feed d).filter
    (fun t => tripActiveAtTime (departureTimes feed t.trip_id) time)

/-- C10: a trip active on the date whose first/last departure times
cannot be compared with the given time (the chained comparison raises
TypeError) is silently excluded: the error is caught, the trip counts
as inactive at that time, and `get_trips` still returns the plain
filtered list, so no exception reaches the caller. -/
theorem get_trips_time_comparison_failure (feed : Feed) (d : Date)
    (time : PyVal) (trip : Trip)
    (herr : spanCompare (departureTimes feed trip.trip_id) time =
      Except.error ()) :
    tripActiveAtTime (departureTimes feed trip.trip_id) time = false
    ∧ trip ∉ get_trips_at feed d time
    ∧ get_trips_at feed d time = (get_trips_on feed d).filter
        (fun t => tripActiveAtTime (departureTimes feed t.trip_id) time) := by
  have h1 : tripActiveAtTime (departureTimes feed trip.trip_id) time =
      false := by
    rw [tripActiveAtTime, herr]
  refine ⟨h1, ?_, rfl⟩
  intro hmem
  have h2 := List.of_mem_filter hmem
  rw [h1] at h2
  cases h2

/-- A feed whose single trip runs on the Mon-Fri calendar of service 5
but has only a missing (NaN) departure time. -/
def exNanFeed : Feed :=
  { trips := [⟨1, 1, 5, 0⟩]
  , calendar := [⟨5, 1, 1, 1, 1, 1, 0, 0, 20200101, 20200131⟩]
  , calendar_dates := []
  , routes := [⟨1⟩]
  , stops := []
  , stop_times := [⟨1, 1, PyVal.nan⟩] }

/-- Witness for C10: on Monday 20200113 the trip is active on the date,
its NaN departure minimum cannot be compared with 08:00:00 (28800 s),
and the trip is excluded without an error. -/
theorem get_trips_time_comparison_failure_witness :
    get_trips_on exNanFeed ⟨20200113, 0⟩ = [⟨1, 1, 5, 0⟩]
    ∧ tripActiveAtTime (departureTimes exNanFeed 1)
        (PyVal.timestr 28800) = false
    ∧ (⟨1, 1, 5, 0⟩ : Trip) ∉
        get_trips_at exNanFeed ⟨20200113, 0⟩ (PyVal.timestr 28800) := by
  have h := get_trips_time_comparison_failure exNanFeed ⟨20200113, 0⟩
    (PyVal.timestr 28800) ⟨1, 1, 5, 0⟩ rfl
  exact ⟨by decide, h.1, h.2.1⟩
